import Mathlib

/-!
Verification of the data-clock consensus core: a shallow embedding of
`node/consensus/data/consensus_frames.go` (the `collect`, `prove`,
`GetAheadPeers` and `sync` methods of `DataClockConsensusEngine`) and of the
peer-score operations of `node/p2p/blossomsub.go`, together with theorems
settling the specification claims about them.

External collaborators (clock store, token application, protobuf marshalling,
SHAKE digest, inclusion prover, frame prover, gRPC transport) live outside the
embedded sources; their call results are supplied as oracle values, while all
control flow, state mutation and event ordering of the embedded functions is
translated statement by statement from the Go source.
-/

namespace Ceremony

/-- Byte strings (Go `[]byte`) as lists of naturals. -/
abbrev Bytes := List Nat

/-- The fields of `protobufs.ClockFrame` that the embedded code reads:
`FrameNumber` (uint64), `Timestamp` (int64 milliseconds), and the producer
public key reached via `GetPublicKeySignatureEd448().PublicKey.KeyValue`. -/
structure ClockFrame where
  frameNumber : Nat
  timestamp : Int
  publicKey : Bytes
deriving DecidableEq, Repr

/-- Result of one `client.GetDataFrame` call in `sync`: a transport error, a
nil response, or a response whose `ClockFrame` field may itself be nil. -/
inductive RpcResult where
  | rpcError
  | respNil
  | resp (clockFrame : Option ClockFrame)
deriving DecidableEq, Repr

/-- The `peerInfo` record held in `e.peerMap` / `e.uncooperativePeersMap`. -/
structure PeerInfo where
  peerId : Bytes
  maxFrame : Nat
  timestamp : Int
  version : Bytes
deriving DecidableEq, Repr

/-- The two peer maps of the engine that `sync` mutates, keyed by
`string(peerId)`. -/
structure SyncState where
  peerMap : List (Bytes × PeerInfo)
  uncooperativePeersMap : List (Bytes × PeerInfo)
deriving DecidableEq, Repr

/-- Go map lookup on an association list. -/
def lookupPeer (k : Bytes) : List (Bytes × PeerInfo) → Option PeerInfo
  | [] => none
  | (k2, v) :: rest => if k2 = k then some v else lookupPeer k rest

/-- Go `delete(m, k)`. -/
def removePeer (k : Bytes) (m : List (Bytes × PeerInfo)) : List (Bytes × PeerInfo) :=
  m.filter (fun p => decide (p.1 ≠ k))

/-- Go map store `m[k] = v`. -/
def upsertPeer (k : Bytes) (v : PeerInfo) (m : List (Bytes × PeerInfo)) :
    List (Bytes × PeerInfo) :=
  (k, v) :: removePeer k m

/-- The deferred block of `sync`: when the peer was uncooperative, move its
entry from `peerMap` to `uncooperativePeersMap` (stamping the demotion time)
and delete it from `peerMap`; a peer absent from `peerMap` is left alone. -/
def markUncooperative (nowMs : Int) (peerId : Bytes) (st : SyncState) : SyncState :=
  match lookupPeer peerId st.peerMap with
  | none => st
  | some info =>
    { peerMap := removePeer peerId st.peerMap
      uncooperativePeersMap :=
        upsertPeer peerId { info with timestamp := nowMs } st.uncooperativePeersMap }

/-- Environment of one `sync` session: whether `GetDirectChannel` succeeds and
the successive results of the per-frame RPCs.  The Go loop runs while
`e.GetState() < EngineStateStopping`; exhaustion of the response trace embeds
the engine observing the stopping state at the top of the loop. -/
structure SyncEnv where
  chanOpenOk : Bool
  responses : List RpcResult
deriving DecidableEq, Repr

/-- Result of the pull loop: the returned frame pointer (none embeds Go `nil`),
the returned error, the frames passed to `dataTimeReel.Insert` in order, the
frame numbers requested from the peer in order, and the final value of the
`cooperative` flag. -/
structure LoopOut where
  latest : Option ClockFrame
  error : Option String
  inserted : List ClockFrame
  requests : List Nat
  cooperative : Bool
deriving DecidableEq, Repr

/-- The pull loop of `sync` (consensus_frames.go lines 320-372), translated
line by line.  Each iteration requests `latest.FrameNumber + 1`; a transport
error sets `cooperative = false` and returns the error; a nil response returns
cleanly; a nil/mis-numbered/time-regressing frame sets `cooperative = false`
and returns cleanly; a producer key outside the prover trie sets
`cooperative = false` but the iteration continues; a frame failing
`VerifyDataClockFrame` aborts with a hard error and a nil frame; otherwise the
frame is inserted and becomes `latest`, returning once `maxFrame` is reached. -/
def syncLoop (verifyOk : ClockFrame → Bool) (trie : List Bytes) (maxFrame : Nat)
    (latest : ClockFrame) (coop : Bool) : List RpcResult → LoopOut
  | [] => ⟨some latest, none, [], [], coop⟩
  | r :: rest =>
    match r with
    | .rpcError => ⟨some latest, some "sync", [], [latest.frameNumber + 1], false⟩
    | .respNil => ⟨some latest, none, [], [latest.frameNumber + 1], coop⟩
    | .resp none => ⟨some latest, none, [], [latest.frameNumber + 1], false⟩
    | .resp (some f) =>
      if f.frameNumber ≠ latest.frameNumber + 1 ∨ f.timestamp < latest.timestamp then
        ⟨some latest, none, [], [latest.frameNumber + 1], false⟩
      else
        let coop2 := if f.publicKey ∈ trie then coop else false
        if verifyOk f then
          if maxFrame ≤ f.frameNumber then
            ⟨some f, none, [f], [latest.frameNumber + 1], coop2⟩
          else
            let out := syncLoop verifyOk trie maxFrame f coop2 rest
            ⟨out.latest, out.error, f :: out.inserted,
              (latest.frameNumber + 1) :: out.requests, out.cooperative⟩
        else
          ⟨none, some "sync", [], [latest.frameNumber + 1], coop2⟩

/-- Outcome of a whole `sync` call: loop result plus the peer-map state after
the deferred uncooperative handling ran. -/
structure SyncOutcome where
  latest : Option ClockFrame
  error : Option String
  inserted : List ClockFrame
  requests : List Nat
  cooperative : Bool
  state : SyncState
deriving DecidableEq, Repr

/-- `sync` (consensus_frames.go lines 271-373).  A channel-open failure makes
the peer uncooperative and returns an error before any request; otherwise the
pull loop runs and the deferred block demotes the peer exactly when the
`cooperative` flag ended up false. -/
def runSync (verifyOk : ClockFrame → Bool) (trie : List Bytes) (nowMs : Int)
    (st : SyncState) (latest : ClockFrame) (maxFrame : Nat) (peerId : Bytes)
    (env : SyncEnv) : SyncOutcome :=
  if env.chanOpenOk = false then
    { latest := some latest, error := some "sync", inserted := [], requests := []
      cooperative := false, state := markUncooperative nowMs peerId st }
  else
    let out := syncLoop verifyOk trie maxFrame latest true env.responses
    { latest := out.latest, error := out.error, inserted := out.inserted
      requests := out.requests, cooperative := out.cooperative
      state := if out.cooperative then st else markUncooperative nowMs peerId st }

/-- Checks that a list of frames continues `prev` one frame number at a time
with non-decreasing timestamps. -/
def frameChainOk : ClockFrame → List ClockFrame → Bool
  | _, [] => true
  | prev, f :: rest =>
    decide (f.frameNumber = prev.frameNumber + 1) &&
      decide (prev.timestamp ≤ f.timestamp) && frameChainOk f rest

/-- Checks that a list of naturals is `n, n+1, n+2, ...`. -/
def consecutiveFrom : Nat → List Nat → Bool
  | _, [] => true
  | n, r :: rest => decide (r = n) && consecutiveFrom (n + 1) rest

lemma syncLoop_chain (verifyOk : ClockFrame → Bool) (trie : List Bytes)
    (maxFrame : Nat) :
    ∀ (rs : List RpcResult) (latest : ClockFrame) (coop : Bool),
      frameChainOk latest (syncLoop verifyOk trie maxFrame latest coop rs).inserted = true ∧
      consecutiveFrom (latest.frameNumber + 1)
        (syncLoop verifyOk trie maxFrame latest coop rs).requests = true := by
  intro rs
  induction rs with
  | nil => intro latest coop; simp [syncLoop, frameChainOk, consecutiveFrom]
  | cons r rest ih =>
    intro latest coop
    cases r with
    | rpcError => simp [syncLoop, frameChainOk, consecutiveFrom]
    | respNil => simp [syncLoop, frameChainOk, consecutiveFrom]
    | resp cf =>
      cases cf with
      | none => simp [syncLoop, frameChainOk, consecutiveFrom]
      | some f =>
        by_cases hbad : f.frameNumber ≠ latest.frameNumber + 1 ∨ f.timestamp < latest.timestamp
        · simp [syncLoop, hbad, frameChainOk, consecutiveFrom]
        · push_neg at hbad
          obtain ⟨hfn, hts⟩ := hbad
          have hcond : ¬(f.frameNumber ≠ latest.frameNumber + 1 ∨
              f.timestamp < latest.timestamp) := by
            push_neg
            exact ⟨hfn, hts⟩
          by_cases hv : verifyOk f
          · by_cases hm : maxFrame ≤ f.frameNumber
            · simp only [syncLoop]
              rw [if_neg hcond, if_pos hv, if_pos hm]
              simp [frameChainOk, consecutiveFrom, hfn, hts]
            · simp only [syncLoop]
              rw [if_neg hcond, if_pos hv, if_neg hm]
              have hrec := ih f (decide (f.publicKey ∈ trie) && coop)
              refine ⟨?_, ?_⟩
              · show frameChainOk latest (f :: _) = true
                simp [frameChainOk, hfn, hts, hrec.1]
              · show consecutiveFrom (latest.frameNumber + 1)
                    ((latest.frameNumber + 1) :: _) = true
                have h2 := hrec.2
                rw [hfn] at h2
                simp [consecutiveFrom, h2]
          · simp [syncLoop, hcond, hv, frameChainOk, consecutiveFrom]

/-- Claim C1: within one call of `sync` starting from frame `latest`, the
frames passed to the time reel's `Insert` have strictly increasing consecutive
frame numbers — each one exactly one greater than the previously held latest
frame, with non-decreasing timestamps — and the engine requests only
`latest.frame_number + 1`, so the requested numbers are consecutive as well. -/
theorem sync_inserts_consecutive (verifyOk : ClockFrame → Bool) (trie : List Bytes)
    (nowMs : Int) (st : SyncState) (latest : ClockFrame) (maxFrame : Nat)
    (peerId : Bytes) (env : SyncEnv) :
    frameChainOk latest (runSync verifyOk trie nowMs st latest maxFrame peerId env).inserted
        = true ∧
    consecutiveFrom (latest.frameNumber + 1)
        (runSync verifyOk trie nowMs st latest maxFrame peerId env).requests = true := by
  by_cases hc : env.chanOpenOk = false
  · simp [runSync, hc, frameChainOk, consecutiveFrom]
  · have := syncLoop_chain verifyOk trie maxFrame env.responses latest true
    simp [runSync, hc, this.1, this.2]

lemma syncLoop_coop_false (verifyOk : ClockFrame → Bool) (trie : List Bytes)
    (maxFrame : Nat) :
    ∀ (rs : List RpcResult) (latest : ClockFrame),
      (syncLoop verifyOk trie maxFrame latest false rs).cooperative = false := by
  intro rs
  induction rs with
  | nil => intro latest; simp [syncLoop]
  | cons r rest ih =>
    intro latest
    cases r with
    | rpcError => simp [syncLoop]
    | respNil => simp [syncLoop]
    | resp cf =>
      cases cf with
      | none => simp [syncLoop]
      | some f =>
        by_cases hbad : f.frameNumber ≠ latest.frameNumber + 1 ∨ f.timestamp < latest.timestamp
        · simp [syncLoop, hbad]
        · by_cases hv : verifyOk f
          · by_cases hm : maxFrame ≤ f.frameNumber
            · simp only [syncLoop]
              rw [if_neg hbad, if_pos hv, if_pos hm]
              simp
            · simp only [syncLoop]
              rw [if_neg hbad, if_pos hv, if_neg hm]
              simp [ih f]
          · simp only [syncLoop]
            rw [if_neg hbad, if_neg hv]
            simp

lemma syncLoop_bad_producer_coop_false (verifyOk : ClockFrame → Bool)
    (trie : List Bytes) (maxFrame : Nat) :
    ∀ (rs : List RpcResult) (latest : ClockFrame) (coop : Bool) (f : ClockFrame),
      f ∈ (syncLoop verifyOk trie maxFrame latest coop rs).inserted →
      f.publicKey ∉ trie →
      (syncLoop verifyOk trie maxFrame latest coop rs).cooperative = false := by
  intro rs
  induction rs with
  | nil => intro latest coop f hf; simp [syncLoop] at hf
  | cons r rest ih =>
    intro latest coop f hf hpk
    cases r with
    | rpcError => simp [syncLoop] at hf
    | respNil => simp [syncLoop] at hf
    | resp cf =>
      cases cf with
      | none => simp [syncLoop] at hf
      | some g =>
        by_cases hbad : g.frameNumber ≠ latest.frameNumber + 1 ∨ g.timestamp < latest.timestamp
        · simp [syncLoop, hbad] at hf
        · by_cases hv : verifyOk g
          · by_cases hm : maxFrame ≤ g.frameNumber
            · simp only [syncLoop] at hf ⊢
              rw [if_neg hbad, if_pos hv, if_pos hm] at hf ⊢
              simp at hf ⊢
              rw [hf] at hpk
              simp [hpk]
            · simp only [syncLoop] at hf ⊢
              rw [if_neg hbad, if_pos hv, if_neg hm] at hf ⊢
              simp at hf ⊢
              rcases hf with hf | hf
              · rw [hf] at hpk
                have : (decide (g.publicKey ∈ trie) && coop) = false := by simp [hpk]
                rw [this]
                exact syncLoop_coop_false verifyOk trie maxFrame rest g
              · exact ih g (decide (g.publicKey ∈ trie) && coop) f hf hpk
          · simp only [syncLoop] at hf
            rw [if_neg hbad, if_neg hv] at hf
            simp at hf

lemma lookupPeer_removePeer_self (k : Bytes) (m : List (Bytes × PeerInfo)) :
    lookupPeer k (removePeer k m) = none := by
  induction m with
  | nil => rfl
  | cons p rest ih =>
    by_cases h : p.1 = k
    · simpa [removePeer, h] using ih
    · simpa [removePeer, lookupPeer, h] using ih

/-- Claim C2 (counterexample to the claim as stated): a pulled frame whose
producer public key is outside the prover trie is nonetheless inserted into
the time reel, and the pull loop continues, issuing a request for the next
frame number from the same peer in the same session. -/
theorem sync_prover_trie_violation_counterexample :
    (⟨6, 10, [9]⟩ : ClockFrame) ∈
        (runSync (fun _ => true) [[1]] 99 ⟨[([1], ⟨[1], 8, 50, [3]⟩)], []⟩ ⟨5, 10, [1]⟩ 9 [1]
          ⟨true, [RpcResult.resp (some ⟨6, 10, [9]⟩), RpcResult.resp (some ⟨7, 10, [9]⟩)]⟩).inserted ∧
    (⟨6, 10, [9]⟩ : ClockFrame).publicKey ∉ ([[1]] : List Bytes) ∧
    (runSync (fun _ => true) [[1]] 99 ⟨[([1], ⟨[1], 8, 50, [3]⟩)], []⟩ ⟨5, 10, [1]⟩ 9 [1]
        ⟨true, [RpcResult.resp (some ⟨6, 10, [9]⟩), RpcResult.resp (some ⟨7, 10, [9]⟩)]⟩).requests
      = [6, 7] := by
  decide

/-- Claim C2 (amended): when a frame whose producer public key is outside the
active prover trie is pulled and inserted during a `sync` session, the peer is
moved to the uncooperative map on exit from `sync` — but the frame is still
inserted (if it verifies) and the pull loop continues to request subsequent
frames from that peer. -/
theorem sync_prover_trie_violation_marks_uncooperative
    (verifyOk : ClockFrame → Bool) (trie : List Bytes) (nowMs : Int)
    (st : SyncState) (latest : ClockFrame) (maxFrame : Nat) (peerId : Bytes)
    (env : SyncEnv) (f : ClockFrame) (info : PeerInfo)
    (hf : f ∈ (runSync verifyOk trie nowMs st latest maxFrame peerId env).inserted)
    (hpk : f.publicKey ∉ trie)
    (hmem : lookupPeer peerId st.peerMap = some info) :
    (runSync verifyOk trie nowMs st latest maxFrame peerId env).cooperative = false ∧
    lookupPeer peerId
        (runSync verifyOk trie nowMs st latest maxFrame peerId env).state.peerMap = none ∧
    lookupPeer peerId
        (runSync verifyOk trie nowMs st latest maxFrame peerId env).state.uncooperativePeersMap
      = some { info with timestamp := nowMs } := by
  by_cases hc : env.chanOpenOk = false
  · simp [runSync, hc] at hf
  · have hcoop :
        (syncLoop verifyOk trie maxFrame latest true env.responses).cooperative = false := by
      apply syncLoop_bad_producer_coop_false verifyOk trie maxFrame env.responses latest true f
      · simpa [runSync, hc] using hf
      · exact hpk
    refine ⟨by simp [runSync, hc, hcoop], ?_, ?_⟩
    · simp [runSync, hc, hcoop, markUncooperative, hmem]
      exact lookupPeer_removePeer_self peerId st.peerMap
    · simp [runSync, hc, hcoop, markUncooperative, hmem, upsertPeer, lookupPeer]

/-- Witness for the amended claim C2 at a concrete session. -/
theorem sync_prover_trie_violation_marks_uncooperative_witness :
    (runSync (fun _ => true) [[1]] 99 ⟨[([1], ⟨[1], 8, 50, [3]⟩)], []⟩ ⟨5, 10, [1]⟩ 9 [1]
        ⟨true, [RpcResult.resp (some ⟨6, 10, [9]⟩), RpcResult.resp (some ⟨7, 10, [9]⟩)]⟩).cooperative
      = false ∧
    lookupPeer [1]
        (runSync (fun _ => true) [[1]] 99 ⟨[([1], ⟨[1], 8, 50, [3]⟩)], []⟩ ⟨5, 10, [1]⟩ 9 [1]
          ⟨true, [RpcResult.resp (some ⟨6, 10, [9]⟩), RpcResult.resp (some ⟨7, 10, [9]⟩)]⟩).state.peerMap
      = none ∧
    lookupPeer [1]
        (runSync (fun _ => true) [[1]] 99 ⟨[([1], ⟨[1], 8, 50, [3]⟩)], []⟩ ⟨5, 10, [1]⟩ 9 [1]
          ⟨true, [RpcResult.resp (some ⟨6, 10, [9]⟩), RpcResult.resp (some ⟨7, 10, [9]⟩)]⟩).state.uncooperativePeersMap
      = some ⟨[1], 8, 99, [3]⟩ :=
  sync_prover_trie_violation_marks_uncooperative (fun _ => true) [[1]] 99
    ⟨[([1], ⟨[1], 8, 50, [3]⟩)], []⟩ ⟨5, 10, [1]⟩ 9 [1]
    ⟨true, [RpcResult.resp (some ⟨6, 10, [9]⟩), RpcResult.resp (some ⟨7, 10, [9]⟩)]⟩
    ⟨6, 10, [9]⟩ ⟨[1], 8, 50, [3]⟩ (by decide) (by decide) (by decide)

/-- Claim C4 (counterexample to the claim as stated): when the RPC response is
nil, `sync` returns with no error and the peer stays cooperative — its entry
remains in the peer map and is not moved to the uncooperative map. -/
theorem sync_nil_response_counterexample :
    (runSync (fun _ => true) [[1]] 99 ⟨[([1], ⟨[1], 8, 50, [3]⟩)], []⟩ ⟨5, 10, [1]⟩ 9 [1]
        ⟨true, [RpcResult.respNil]⟩).error = none ∧
    (runSync (fun _ => true) [[1]] 99 ⟨[([1], ⟨[1], 8, 50, [3]⟩)], []⟩ ⟨5, 10, [1]⟩ 9 [1]
        ⟨true, [RpcResult.respNil]⟩).cooperative = true ∧
    (runSync (fun _ => true) [[1]] 99 ⟨[([1], ⟨[1], 8, 50, [3]⟩)], []⟩ ⟨5, 10, [1]⟩ 9 [1]
        ⟨true, [RpcResult.respNil]⟩).state = ⟨[([1], ⟨[1], 8, 50, [3]⟩)], []⟩ ∧
    lookupPeer [1]
        (runSync (fun _ => true) [[1]] 99 ⟨[([1], ⟨[1], 8, 50, [3]⟩)], []⟩ ⟨5, 10, [1]⟩ 9 [1]
          ⟨true, [RpcResult.respNil]⟩).state.uncooperativePeersMap = none := by
  decide

/-- Claim C4 (amended): a nil RPC response ends the session — no further
frames are pulled — but it is not treated as a protocol violation: `sync`
returns the unchanged latest frame with no error, the peer stays cooperative
and the peer maps are left untouched. -/
theorem sync_nil_response_returns_clean (verifyOk : ClockFrame → Bool)
    (trie : List Bytes) (nowMs : Int) (st : SyncState) (latest : ClockFrame)
    (maxFrame : Nat) (peerId : Bytes) (env : SyncEnv) (rest : List RpcResult)
    (hopen : env.chanOpenOk = true)
    (hresp : env.responses = RpcResult.respNil :: rest) :
    runSync verifyOk trie nowMs st latest maxFrame peerId env =
      { latest := some latest, error := none, inserted := []
        requests := [latest.frameNumber + 1], cooperative := true, state := st } := by
  simp [runSync, hopen, hresp, syncLoop]

/-- Witness for the amended claim C4 at a concrete session. -/
theorem sync_nil_response_returns_clean_witness :
    runSync (fun _ => true) [[1]] 99 ⟨[([1], ⟨[1], 8, 50, [3]⟩)], []⟩ ⟨5, 10, [1]⟩ 9 [1]
        ⟨true, [RpcResult.respNil]⟩ =
      { latest := some ⟨5, 10, [1]⟩, error := none, inserted := [], requests := [6]
        cooperative := true, state := ⟨[([1], ⟨[1], 8, 50, [3]⟩)], []⟩ } :=
  sync_nil_response_returns_clean (fun _ => true) [[1]] 99
    ⟨[([1], ⟨[1], 8, 50, [3]⟩)], []⟩ ⟨5, 10, [1]⟩ 9 [1] ⟨true, [RpcResult.respNil]⟩ []
    rfl rfl

/-- The `internal.PeerCandidate` record consumed by `collect`. -/
structure PeerCandidate where
  peerId : Bytes
  maxFrame : Nat
deriving DecidableEq, Repr

/-- A Go runtime panic observable in the embedded control flow. -/
inductive GoPanic where
  | nilDereference
deriving DecidableEq, Repr

deriving instance DecidableEq for Except

/-- The inner candidate loop of `collect` (consensus_frames.go lines 36-46),
with each candidate paired with the environment its `sync` session will see.
Go assigns `latest, err = e.sync(...)` and, on error, logs and continues, so
`latest` is replaced by `sync`'s returned frame pointer in every case; reading
`latest.FrameNumber` for the next candidate dereferences that pointer and
panics when it is nil. -/
def collectInner (verifyOk : ClockFrame → Bool) (trie : List Bytes) (nowMs : Int)
    (latestFrameReceived : Nat) :
    SyncState → Option ClockFrame → List (PeerCandidate × SyncEnv) →
      Except GoPanic (SyncState × Option ClockFrame)
  | st, latestOpt, [] => .ok (st, latestOpt)
  | st, latestOpt, (c, env) :: rest =>
    match latestOpt with
    | none => .error .nilDereference
    | some lf =>
      if c.maxFrame ≤ max lf.frameNumber latestFrameReceived then
        collectInner verifyOk trie nowMs latestFrameReceived st latestOpt rest
      else
        let o := runSync verifyOk trie nowMs st lf c.maxFrame c.peerId env
        collectInner verifyOk trie nowMs latestFrameReceived o.state o.latest rest

/-- Claim C3 (code bug, evaluated at the failing input): a peer returns the
correctly numbered frame 6 which fails `VerifyDataClockFrame`.  `sync` indeed
returns a hard error and the peer stays cooperative (the peer maps are
untouched), but `sync` returns a nil frame pointer, so `collect` — after
logging the error and continuing — dereferences the nil `latest` at the next
candidate and panics instead of evaluating the remaining candidates. -/
theorem collect_nil_frame_panic_after_verify_failure :
    (runSync (fun f => decide (f.frameNumber ≠ 6)) [[1]] 99
        ⟨[([1], ⟨[1], 8, 50, [3]⟩)], []⟩ ⟨5, 10, [1]⟩ 8 [1]
        ⟨true, [RpcResult.resp (some ⟨6, 10, [1]⟩)]⟩).error = some "sync" ∧
    (runSync (fun f => decide (f.frameNumber ≠ 6)) [[1]] 99
        ⟨[([1], ⟨[1], 8, 50, [3]⟩)], []⟩ ⟨5, 10, [1]⟩ 8 [1]
        ⟨true, [RpcResult.resp (some ⟨6, 10, [1]⟩)]⟩).cooperative = true ∧
    (runSync (fun f => decide (f.frameNumber ≠ 6)) [[1]] 99
        ⟨[([1], ⟨[1], 8, 50, [3]⟩)], []⟩ ⟨5, 10, [1]⟩ 8 [1]
        ⟨true, [RpcResult.resp (some ⟨6, 10, [1]⟩)]⟩).state
      = ⟨[([1], ⟨[1], 8, 50, [3]⟩)], []⟩ ∧
    (runSync (fun f => decide (f.frameNumber ≠ 6)) [[1]] 99
        ⟨[([1], ⟨[1], 8, 50, [3]⟩)], []⟩ ⟨5, 10, [1]⟩ 8 [1]
        ⟨true, [RpcResult.resp (some ⟨6, 10, [1]⟩)]⟩).latest = none ∧
    collectInner (fun f => decide (f.frameNumber ≠ 6)) [[1]] 99 0
        ⟨[([1], ⟨[1], 8, 50, [3]⟩)], []⟩ (some ⟨5, 10, [1]⟩)
        [(⟨[1], 8⟩, ⟨true, [RpcResult.resp (some ⟨6, 10, [1]⟩)]⟩),
         (⟨[2], 8⟩, ⟨true, [RpcResult.resp (some ⟨6, 10, [1]⟩)]⟩)]
      = .error GoPanic.nilDereference := by
  decide

/-- Engine state read and written by `prove`: the `lastProven` frame number
and the nil-able staged transaction list (`e.stagedTransactions`, whose
`Requests` are modelled as opaque ids). -/
structure ProveState where
  lastProven : Nat
  stagedTransactions : Option (List Nat)
deriving DecidableEq, Repr

/-- Observable steps of one `prove` invocation, in program order, used to
state mutex- and pipeline-ordering properties. -/
inductive ProveEvent where
  | lockStaging
  | getDataClockFrame
  | materializeApplication
  | applyTransitions
  | unlockStaging
  | materializeState
  | digestSteps
  | commitRaw
  | proveRaw
  | proveDataClockFrame
deriving DecidableEq, Repr

/-- Oracle results of the external calls `prove` makes (clock store, token
application, protobuf marshalling, SHAKE digest, inclusion prover, frame
prover).  These collaborators live outside the embedded source; arguments the
Go code computes locally are passed through where the dependence matters. -/
structure ProveEnv where
  clockStoreErr : Option String
  materializeRes : Except String Nat
  applyRes : Nat → List Nat → Except String (Nat × List Nat × List Nat)
  matStateRes : Nat → Except String Nat
  marshalOutputRes : Nat → Except String Bytes
  marshalValidRes : List Nat → Except String Bytes
  marshalExecRes : Bytes → Bytes → Except String Bytes
  digestWriteErr : Option String
  digestReadRes : Except String Bytes
  commitRes : Bytes → Except String Bytes
  proveRawRes : Bytes → Nat → Except String Bytes
  proveFrameRes : Except String ClockFrame

/-- Result of one `prove` invocation: the engine state after it, the event
trace, and the returned frame or error. -/
structure ProveOut where
  state : ProveState
  events : List ProveEvent
  result : Except String ClockFrame
deriving DecidableEq, Repr

/-- `prove` (consensus_frames.go lines 58-213), translated statement by
statement.  The short-circuit returns `previousFrame` untouched; the clock
store error of `GetDataClockFrame` is assigned to `err` and then overwritten
by the `MaterializeApplicationFromFrame` assignment without being read; the
staging buffer is replaced by a fresh empty list both when `ApplyTransitions`
fails and when it succeeds, and the staging mutex is released before the
commitment/opening/frame-proving steps; `lastProven` is assigned only after
every fallible step has succeeded. -/
def proveM (env : ProveEnv) (st : ProveState) (prev : ClockFrame) : ProveOut :=
  if prev.frameNumber ≤ st.lastProven ∧ st.lastProven ≠ 0 then
    ⟨st, [], .ok prev⟩
  else
    let ev1 : List ProveEvent :=
      [.lockStaging, .getDataClockFrame, .materializeApplication]
    match env.materializeRes with
    | .error e => ⟨st, ev1 ++ [.unlockStaging], .error ("prove: " ++ e)⟩
    | .ok app =>
      let staged := st.stagedTransactions.getD []
      let st1 : ProveState := { st with stagedTransactions := some staged }
      match env.applyRes (prev.frameNumber + 1) staged with
      | .error e =>
        ⟨{ st1 with stagedTransactions := some [] },
          ev1 ++ [.applyTransitions, .unlockStaging], .error ("prove: " ++ e)⟩
      | .ok (app2, validTxs, _invalidTxs) =>
        let st2 : ProveState := { st1 with stagedTransactions := some [] }
        let ev2 := ev1 ++ [.applyTransitions, .unlockStaging]
        match env.matStateRes app2 with
        | .error e => ⟨st2, ev2 ++ [.materializeState], .error ("prove: " ++ e)⟩
        | .ok outputState =>
          let ev3 := ev2 ++ [.materializeState]
          match env.marshalOutputRes outputState with
          | .error e => ⟨st2, ev3, .error ("prove: " ++ e)⟩
          | .ok outBytes =>
            match env.marshalValidRes validTxs with
            | .error e => ⟨st2, ev3, .error ("prove: " ++ e)⟩
            | .ok proofSerial =>
              match env.marshalExecRes outBytes proofSerial with
              | .error e => ⟨st2, ev3, .error ("prove: " ++ e)⟩
              | .ok data =>
                match env.digestWriteErr with
                | some e => ⟨st2, ev3 ++ [.digestSteps], .error ("prove: " ++ e)⟩
                | none =>
                  match env.digestReadRes with
                  | .error e => ⟨st2, ev3 ++ [.digestSteps], .error ("prove: " ++ e)⟩
                  | .ok expand =>
                    match env.commitRes expand with
                    | .error e =>
                      ⟨st2, ev3 ++ [.digestSteps, .commitRaw], .error ("prove: " ++ e)⟩
                    | .ok _commitment =>
                      match env.proveRawRes expand (expand.headD 0 % 16) with
                      | .error e =>
                        ⟨st2, ev3 ++ [.digestSteps, .commitRaw, .proveRaw],
                          .error ("prove: " ++ e)⟩
                      | .ok _openingProof =>
                        match env.proveFrameRes with
                        | .error e =>
                          ⟨st2,
                            ev3 ++ [.digestSteps, .commitRaw, .proveRaw, .proveDataClockFrame],
                            .error ("prove: " ++ e)⟩
                        | .ok frame =>
                          ⟨{ st2 with lastProven := prev.frameNumber },
                            ev3 ++ [.digestSteps, .commitRaw, .proveRaw, .proveDataClockFrame],
                            .ok frame⟩

lemma proveM_short (env : ProveEnv) (st : ProveState) (prev : ClockFrame)
    (h1 : prev.frameNumber ≤ st.lastProven) (h2 : st.lastProven ≠ 0) :
    proveM env st prev = ⟨st, [], .ok prev⟩ := by
  unfold proveM
  rw [if_pos ⟨h1, h2⟩]

lemma proveM_cases (env : ProveEnv) (st : ProveState) (prev : ClockFrame) :
    ((proveM env st prev).state = st ∧ prev.frameNumber ≤ st.lastProven ∧
      st.lastProven ≠ 0 ∧ (proveM env st prev).result = .ok prev) ∨
    ((proveM env st prev).state.lastProven = prev.frameNumber ∧
      ∃ f, (proveM env st prev).result = .ok f) ∨
    (∃ e, (proveM env st prev).result = .error e ∧
      (proveM env st prev).state.lastProven = st.lastProven) := by
  unfold proveM
  repeat' (split <;> try simp_all)
  all_goals simp_all

/-- Claim C5 (counterexample to the claim as stated): for the genesis frame
(`frame_number = 0`) a successful `prove` sets `lastProven = 0`, so the
short-circuit guard `lastProven ≠ 0` fails and a second call runs the whole
pipeline again, producing a second frame instead of returning `prev`. -/
theorem prove_genesis_not_idempotent_counterexample :
    (proveM
        ⟨none, .ok 0, fun _ _ => .ok (0, [], []), fun _ => .ok 0, fun _ => .ok [],
          fun _ => .ok [], fun _ _ => .ok [], none, .ok [7], fun _ => .ok [],
          fun _ _ => .ok [], .ok ⟨1, 5, [1]⟩⟩
        ⟨0, some []⟩ ⟨0, 0, [1]⟩).result = Except.ok (⟨1, 5, [1]⟩ : ClockFrame) ∧
    (proveM
        ⟨none, .ok 0, fun _ _ => .ok (0, [], []), fun _ => .ok 0, fun _ => .ok [],
          fun _ => .ok [], fun _ _ => .ok [], none, .ok [7], fun _ => .ok [],
          fun _ _ => .ok [], .ok ⟨1, 5, [1]⟩⟩
        (proveM
          ⟨none, .ok 0, fun _ _ => .ok (0, [], []), fun _ => .ok 0, fun _ => .ok [],
            fun _ => .ok [], fun _ _ => .ok [], none, .ok [7], fun _ => .ok [],
            fun _ _ => .ok [], .ok ⟨1, 5, [1]⟩⟩
          ⟨0, some []⟩ ⟨0, 0, [1]⟩).state ⟨0, 0, [1]⟩).result
      = Except.ok (⟨1, 5, [1]⟩ : ClockFrame) ∧
    (proveM
        ⟨none, .ok 0, fun _ _ => .ok (0, [], []), fun _ => .ok 0, fun _ => .ok [],
          fun _ => .ok [], fun _ _ => .ok [], none, .ok [7], fun _ => .ok [],
          fun _ _ => .ok [], .ok ⟨1, 5, [1]⟩⟩
        (proveM
          ⟨none, .ok 0, fun _ _ => .ok (0, [], []), fun _ => .ok 0, fun _ => .ok [],
            fun _ => .ok [], fun _ _ => .ok [], none, .ok [7], fun _ => .ok [],
            fun _ _ => .ok [], .ok ⟨1, 5, [1]⟩⟩
          ⟨0, some []⟩ ⟨0, 0, [1]⟩).state ⟨0, 0, [1]⟩).result
      ≠ Except.ok (⟨0, 0, [1]⟩ : ClockFrame) := by
  decide

/-- Claim C5 (amended): whenever `lastProven ≥ prev.frame_number` and
`lastProven ≠ 0`, `prove(prev)` returns `prev` unchanged, with no state
mutation and no external calls; hence after a successful `prove(prev)` with
`prev.frame_number ≠ 0` a second call returns `prev` itself (for the genesis
frame, `frame_number = 0`, the short-circuit does not engage). -/
theorem prove_short_circuit_idempotent (env env2 : ProveEnv) (st : ProveState)
    (prev : ClockFrame) (f : ClockFrame) :
    (∀ st2 : ProveState, prev.frameNumber ≤ st2.lastProven → st2.lastProven ≠ 0 →
      proveM env2 st2 prev = ⟨st2, [], .ok prev⟩) ∧
    (prev.frameNumber ≠ 0 → (proveM env st prev).result = .ok f →
      proveM env2 (proveM env st prev).state prev =
        ⟨(proveM env st prev).state, [], Except.ok prev⟩) := by
  refine ⟨fun st2 h1 h2 => proveM_short env2 st2 prev h1 h2, fun h0 hok => ?_⟩
  rcases proveM_cases env st prev with ⟨hst, hle, hne, _⟩ | ⟨hlp, _⟩ | ⟨e, herr, _⟩
  · rw [hst]
    exact proveM_short env2 st prev hle hne
  · exact proveM_short env2 _ prev (by rw [hlp]) (by rw [hlp]; exact h0)
  · rw [herr] at hok
    cases hok

/-- Witness for the amended claim C5: the short-circuit at `lastProven = 3`,
and idempotence after a successful `prove` of frame 1. -/
theorem prove_short_circuit_idempotent_witness :
    proveM
        ⟨none, .ok 0, fun _ _ => .ok (0, [], []), fun _ => .ok 0, fun _ => .ok [],
          fun _ => .ok [], fun _ _ => .ok [], none, .ok [7], fun _ => .ok [],
          fun _ _ => .ok [], .ok ⟨2, 5, [1]⟩⟩
        ⟨3, some []⟩ ⟨1, 0, [1]⟩ = ⟨⟨3, some []⟩, [], Except.ok ⟨1, 0, [1]⟩⟩ ∧
    proveM
        ⟨none, .ok 0, fun _ _ => .ok (0, [], []), fun _ => .ok 0, fun _ => .ok [],
          fun _ => .ok [], fun _ _ => .ok [], none, .ok [7], fun _ => .ok [],
          fun _ _ => .ok [], .ok ⟨2, 5, [1]⟩⟩
        (proveM
          ⟨none, .ok 0, fun _ _ => .ok (0, [], []), fun _ => .ok 0, fun _ => .ok [],
            fun _ => .ok [], fun _ _ => .ok [], none, .ok [7], fun _ => .ok [],
            fun _ _ => .ok [], .ok ⟨2, 5, [1]⟩⟩
          ⟨0, some []⟩ ⟨1, 0, [1]⟩).state ⟨1, 0, [1]⟩ =
      ⟨(proveM
          ⟨none, .ok 0, fun _ _ => .ok (0, [], []), fun _ => .ok 0, fun _ => .ok [],
            fun _ => .ok [], fun _ _ => .ok [], none, .ok [7], fun _ => .ok [],
            fun _ _ => .ok [], .ok ⟨2, 5, [1]⟩⟩
          ⟨0, some []⟩ ⟨1, 0, [1]⟩).state, [], Except.ok ⟨1, 0, [1]⟩⟩ :=
  ⟨(prove_short_circuit_idempotent
      ⟨none, .ok 0, fun _ _ => .ok (0, [], []), fun _ => .ok 0, fun _ => .ok [],
        fun _ => .ok [], fun _ _ => .ok [], none, .ok [7], fun _ => .ok [],
        fun _ _ => .ok [], .ok ⟨2, 5, [1]⟩⟩
      ⟨none, .ok 0, fun _ _ => .ok (0, [], []), fun _ => .ok 0, fun _ => .ok [],
        fun _ => .ok [], fun _ _ => .ok [], none, .ok [7], fun _ => .ok [],
        fun _ _ => .ok [], .ok ⟨2, 5, [1]⟩⟩
      ⟨0, some []⟩ ⟨1, 0, [1]⟩ ⟨2, 5, [1]⟩).1 ⟨3, some []⟩ (by decide) (by decide),
   (prove_short_circuit_idempotent
      ⟨none, .ok 0, fun _ _ => .ok (0, [], []), fun _ => .ok 0, fun _ => .ok [],
        fun _ => .ok [], fun _ _ => .ok [], none, .ok [7], fun _ => .ok [],
        fun _ _ => .ok [], .ok ⟨2, 5, [1]⟩⟩
      ⟨none, .ok 0, fun _ _ => .ok (0, [], []), fun _ => .ok 0, fun _ => .ok [],
        fun _ => .ok [], fun _ _ => .ok [], none, .ok [7], fun _ => .ok [],
        fun _ _ => .ok [], .ok ⟨2, 5, [1]⟩⟩
      ⟨0, some []⟩ ⟨1, 0, [1]⟩ ⟨2, 5, [1]⟩).2 (by decide) (by decide)⟩

/-- Scans an event trace checking that every commitment / opening / frame
proving event occurs only after the staging mutex has been released; the flag
records whether an unlock has been seen. -/
def cryptoAfterUnlockOk : Bool → List ProveEvent → Bool
  | _, [] => true
  | unlocked, e :: rest =>
    match e with
    | .unlockStaging => cryptoAfterUnlockOk true rest
    | .commitRaw => unlocked && cryptoAfterUnlockOk unlocked rest
    | .proveRaw => unlocked && cryptoAfterUnlockOk unlocked rest
    | .proveDataClockFrame => unlocked && cryptoAfterUnlockOk unlocked rest
    | _ => cryptoAfterUnlockOk unlocked rest

lemma proveM_staging (env : ProveEnv) (st : ProveState) (prev : ClockFrame) :
    (ProveEvent.applyTransitions ∈ (proveM env st prev).events →
      (proveM env st prev).state.stagedTransactions = some []) ∧
    cryptoAfterUnlockOk false (proveM env st prev).events = true := by
  unfold proveM
  repeat' (split <;> try simp_all [cryptoAfterUnlockOk])
  all_goals simp_all [cryptoAfterUnlockOk]

/-- Claim C7: every `prove` invocation that reaches the transition-application
step leaves the staging buffer replaced by a fresh empty list — whether
`ApplyTransitions` succeeds or fails, so a failed round's staged transactions
are not re-admitted — and the staging mutex is released before any
`CommitRaw` / `ProveRaw` / `ProveDataClockFrame` step runs. -/
theorem prove_staging_reset_and_unlock_before_crypto (env : ProveEnv)
    (st : ProveState) (prev : ClockFrame)
    (h : ProveEvent.applyTransitions ∈ (proveM env st prev).events) :
    (proveM env st prev).state.stagedTransactions = some [] ∧
    cryptoAfterUnlockOk false (proveM env st prev).events = true :=
  ⟨(proveM_staging env st prev).1 h, (proveM_staging env st prev).2⟩

/-- Witness for claim C7 on a fully successful round. -/
theorem prove_staging_reset_and_unlock_before_crypto_witness :
    (proveM
        ⟨none, .ok 0, fun _ _ => .ok (0, [], []), fun _ => .ok 0, fun _ => .ok [],
          fun _ => .ok [], fun _ _ => .ok [], none, .ok [7], fun _ => .ok [],
          fun _ _ => .ok [], .ok ⟨2, 5, [1]⟩⟩
        ⟨0, some [4, 5]⟩ ⟨1, 0, [1]⟩).state.stagedTransactions = some [] ∧
    cryptoAfterUnlockOk false
        (proveM
          ⟨none, .ok 0, fun _ _ => .ok (0, [], []), fun _ => .ok 0, fun _ => .ok [],
            fun _ => .ok [], fun _ _ => .ok [], none, .ok [7], fun _ => .ok [],
            fun _ _ => .ok [], .ok ⟨2, 5, [1]⟩⟩
          ⟨0, some [4, 5]⟩ ⟨1, 0, [1]⟩).events = true :=
  prove_staging_reset_and_unlock_before_crypto
    ⟨none, .ok 0, fun _ _ => .ok (0, [], []), fun _ => .ok 0, fun _ => .ok [],
      fun _ => .ok [], fun _ _ => .ok [], none, .ok [7], fun _ => .ok [],
      fun _ _ => .ok [], .ok ⟨2, 5, [1]⟩⟩
    ⟨0, some [4, 5]⟩ ⟨1, 0, [1]⟩ (by decide)

/-- Claim C8: whenever `prove` returns an error — from materialization,
transition application, marshalling, digesting, commitment, opening, or frame
proving — the engine's `lastProven` field is unchanged by that call. -/
theorem prove_error_preserves_lastProven (env : ProveEnv) (st : ProveState)
    (prev : ClockFrame) (e : String)
    (h : (proveM env st prev).result = .error e) :
    (proveM env st prev).state.lastProven = st.lastProven := by
  rcases proveM_cases env st prev with ⟨_, _, _, hok⟩ | ⟨_, f, hok⟩ | ⟨e2, _, hlast⟩
  · rw [hok] at h
    cases h
  · rw [hok] at h
    cases h
  · exact hlast

/-- Witness for claim C8: a failing frame-prover call leaves `lastProven`
untouched. -/
theorem prove_error_preserves_lastProven_witness :
    (proveM
        ⟨none, .ok 0, fun _ _ => .ok (0, [], []), fun _ => .ok 0, fun _ => .ok [],
          fun _ => .ok [], fun _ _ => .ok [], none, .ok [7], fun _ => .ok [],
          fun _ _ => .ok [], .error "vdf"⟩
        ⟨0, some []⟩ ⟨1, 0, [1]⟩).state.lastProven = (⟨0, some []⟩ : ProveState).lastProven :=
  prove_error_preserves_lastProven
    ⟨none, .ok 0, fun _ _ => .ok (0, [], []), fun _ => .ok 0, fun _ => .ok [],
      fun _ => .ok [], fun _ _ => .ok [], none, .ok [7], fun _ => .ok [],
      fun _ _ => .ok [], .error "vdf"⟩
    ⟨0, some []⟩ ⟨1, 0, [1]⟩ "prove: vdf" (by decide)

/-- Claim C9: the error the clock store returns when loading the data-clock
tries is dead — `prove`'s outcome is independent of it, because the `err`
variable is overwritten by the `MaterializeApplicationFromFrame` assignment
before ever being read — and, when the call is not short-circuited, `prove`
fails at this early stage exactly when materialization fails. -/
theorem prove_ignores_clock_store_error (env : ProveEnv) (st : ProveState)
    (prev : ClockFrame) (e : String) :
    proveM { env with clockStoreErr := some e } st prev =
      proveM { env with clockStoreErr := none } st prev ∧
    ∀ m : String, env.materializeRes = .error m →
      ¬(prev.frameNumber ≤ st.lastProven ∧ st.lastProven ≠ 0) →
      (proveM env st prev).result = .error ("prove: " ++ m) := by
  constructor
  · rfl
  · intro m hm h0
    unfold proveM
    rw [if_neg h0, hm]

/-- Witness for claim C9: a concrete environment whose clock store fails and
whose materialization fails. -/
theorem prove_ignores_clock_store_error_witness :
    proveM
        ⟨some "store", .error "boom", fun _ _ => .ok (0, [], []), fun _ => .ok 0,
          fun _ => .ok [], fun _ => .ok [], fun _ _ => .ok [], none, .ok [7],
          fun _ => .ok [], fun _ _ => .ok [], .ok ⟨2, 5, [1]⟩⟩
        ⟨0, some []⟩ ⟨1, 0, [1]⟩ =
      proveM
        ⟨none, .error "boom", fun _ _ => .ok (0, [], []), fun _ => .ok 0,
          fun _ => .ok [], fun _ => .ok [], fun _ _ => .ok [], none, .ok [7],
          fun _ => .ok [], fun _ _ => .ok [], .ok ⟨2, 5, [1]⟩⟩
        ⟨0, some []⟩ ⟨1, 0, [1]⟩ ∧
    (proveM
        ⟨some "store", .error "boom", fun _ _ => .ok (0, [], []), fun _ => .ok 0,
          fun _ => .ok [], fun _ => .ok [], fun _ _ => .ok [], none, .ok [7],
          fun _ => .ok [], fun _ _ => .ok [], .ok ⟨2, 5, [1]⟩⟩
        ⟨0, some []⟩ ⟨1, 0, [1]⟩).result = .error ("prove: " ++ "boom") :=
  ⟨(prove_ignores_clock_store_error
      ⟨some "store", .error "boom", fun _ _ => .ok (0, [], []), fun _ => .ok 0,
        fun _ => .ok [], fun _ => .ok [], fun _ _ => .ok [], none, .ok [7],
        fun _ => .ok [], fun _ _ => .ok [], .ok ⟨2, 5, [1]⟩⟩
      ⟨0, some []⟩ ⟨1, 0, [1]⟩ "store").1,
   (prove_ignores_clock_store_error
      ⟨some "store", .error "boom", fun _ _ => .ok (0, [], []), fun _ => .ok 0,
        fun _ => .ok [], fun _ => .ok [], fun _ _ => .ok [], none, .ok [7],
        fun _ => .ok [], fun _ _ => .ok [], .ok ⟨2, 5, [1]⟩⟩
      ⟨0, some []⟩ ⟨1, 0, [1]⟩ "store").2 "boom" rfl (by decide)⟩

/-- Go `bytes.Compare`: lexicographic comparison of byte slices. -/
def byteCompare : Bytes → Bytes → Ordering
  | [], [] => .eq
  | [], _ :: _ => .lt
  | _ :: _, [] => .gt
  | a :: as, b :: bs =>
    if a < b then .lt else if b < a then .gt else byteCompare as bs

/-- `internal.WeightedPeerCandidate`; the float64 weight is modelled as an
exact rational. -/
structure WeightedPeerCandidate where
  peerId : Bytes
  maxFrame : Nat
  weight : ℚ
deriving DecidableEq, Repr

/-- The engine state `GetAheadPeers` reads: the result of
`GetFrameProverTries()[0].Contains(e.provingKeyAddress)`, the values of
`e.peerMap`, the keys of `e.uncooperativePeersMap`, and the minimum-version
configuration. -/
structure RegistryView where
  selfInProverTrie : Bool
  peerMap : List PeerInfo
  uncooperativeKeys : List Bytes
  minimumVersionCutoffMs : Int
  minimumVersion : Bytes
deriving DecidableEq, Repr

/-- The four `continue` guards of the peer loop in `GetAheadPeers`
(consensus_frames.go lines 239-250), as a keep-predicate. -/
def peerEligible (e : RegistryView) (frameNumber : Nat) (v : PeerInfo) : Bool :=
  decide (frameNumber < v.maxFrame) &&
    !(decide (v.peerId ∈ e.uncooperativeKeys)) &&
    decide (e.minimumVersionCutoffMs < v.timestamp) &&
    !(decide (byteCompare v.version e.minimumVersion = Ordering.lt))

/-- The `maxDiff` accumulated over the eligible peers. -/
def maxAheadDiff (e : RegistryView) (frameNumber : Nat) : Nat :=
  ((e.peerMap.filter (peerEligible e frameNumber)).map
    (fun v => v.maxFrame - frameNumber)).foldr max 0

def sampleShuffleAux {α : Type} : Nat → List α → List Nat → List α
  | 0, _, _ => []
  | _ + 1, [], _ => []
  | fuel + 1, x :: xs, keys =>
    let i := keys.headD 0 % (x :: xs).length
    (x :: xs).getD i x :: sampleShuffleAux fuel ((x :: xs).eraseIdx i) keys.tail

/-- Modelled from the spec: `internal.WeightedSampleWithoutReplacement` lives
in package `node/consensus/data/internal`, which is not among the sources.
Per the spec it returns the whole candidate list shuffled by weighted sampling
without replacement (candidates ordered by a function of injected randomness),
i.e. some permutation of its input; the injected randomness is embedded as a
list of draw keys, each selecting the next remaining element. -/
def sampleShuffle {α : Type} (l : List α) (keys : List Nat) : List α :=
  sampleShuffleAux l.length l keys

/-- `GetAheadPeers` (consensus_frames.go lines 215-269): empty when the local
proving key address is in prover trie 0; otherwise the eligible peers receive
weight `(maxFrame − head) / maxDiff` and the list is passed to the weighted
sampler with `n = len(candidates)`. -/
def getAheadPeers (e : RegistryView) (frameNumber : Nat) (keys : List Nat) :
    List WeightedPeerCandidate :=
  if e.selfInProverTrie then [] else
  let eligible := e.peerMap.filter (peerEligible e frameNumber)
  if eligible.isEmpty then [] else
  sampleShuffle
    (eligible.map (fun v =>
      ⟨v.peerId, v.maxFrame,
        ((v.maxFrame - frameNumber : Nat) : ℚ) / ((maxAheadDiff e frameNumber : Nat) : ℚ)⟩))
    keys

lemma getD_cons_eraseIdx_perm {α : Type} (d : α) :
    ∀ (l : List α) (i : Nat), i < l.length → (l.getD i d :: l.eraseIdx i).Perm l
  | [], i, h => absurd h (by simp)
  | x :: xs, 0, _ => by simp
  | x :: xs, i + 1, h => by
    have ih := getD_cons_eraseIdx_perm d xs i (by simpa using h)
    have h1 : (x :: xs).getD (i + 1) d :: (x :: xs).eraseIdx (i + 1)
        = xs.getD i d :: x :: xs.eraseIdx i := by simp
    rw [h1]
    exact (List.Perm.swap x (xs.getD i d) (xs.eraseIdx i)).trans (ih.cons x)

lemma sampleShuffleAux_perm {α : Type} :
    ∀ (fuel : Nat) (l : List α) (keys : List Nat), l.length ≤ fuel →
      (sampleShuffleAux fuel l keys).Perm l
  | 0, l, keys, h => by
    have : l = [] := List.length_eq_zero.mp (Nat.le_zero.mp h)
    simp [this, sampleShuffleAux]
  | fuel + 1, [], keys, _ => by simp [sampleShuffleAux]
  | fuel + 1, x :: xs, keys, h => by
    have hi : keys.headD 0 % (x :: xs).length < (x :: xs).length :=
      Nat.mod_lt _ (Nat.succ_pos _)
    have hlen : ((x :: xs).eraseIdx (keys.headD 0 % (x :: xs).length)).length ≤ fuel := by
      rw [List.length_eraseIdx_of_lt hi]
      simpa using Nat.le_of_succ_le_succ h
    have ih := sampleShuffleAux_perm fuel
      ((x :: xs).eraseIdx (keys.headD 0 % (x :: xs).length)) keys.tail hlen
    exact (ih.cons _).trans (getD_cons_eraseIdx_perm x (x :: xs) _ hi)

lemma sampleShuffle_perm {α : Type} (l : List α) (keys : List Nat) :
    (sampleShuffle l keys).Perm l :=
  sampleShuffleAux_perm l.length l keys (Nat.le_refl _)

lemma le_foldr_max (a : Nat) (l : List Nat) (h : a ∈ l) : a ≤ l.foldr max 0 := by
  induction l with
  | nil => cases h
  | cons b bs ih =>
    rcases List.mem_cons.mp h with h | h
    · subst h
      exact Nat.le_max_left _ _
    · exact Nat.le_trans (ih h) (Nat.le_max_right _ _)

/-- Claim C6: `GetAheadPeers(head)` returns the empty list when the local
node's proving key address is in prover trie 0; otherwise it returns exactly
(up to the sampler's permutation) the cooperative peers — not uncooperative,
above the version cutoff, meeting the minimum version — whose `max_frame`
strictly exceeds `head`, each weighted by `(max_frame − head) / maxDiff` with
`maxDiff` the largest such difference, so every weight lies in `[0, 1]`. -/
theorem getAheadPeers_spec (e : RegistryView) (frameNumber : Nat)
    (keys : List Nat) :
    (e.selfInProverTrie = true → getAheadPeers e frameNumber keys = []) ∧
    (e.selfInProverTrie = false →
      (getAheadPeers e frameNumber keys).Perm
        ((e.peerMap.filter (peerEligible e frameNumber)).map (fun v =>
          ⟨v.peerId, v.maxFrame,
            ((v.maxFrame - frameNumber : Nat) : ℚ) /
              ((maxAheadDiff e frameNumber : Nat) : ℚ)⟩)) ∧
      ∀ c ∈ getAheadPeers e frameNumber keys,
        c.weight =
          ((c.maxFrame - frameNumber : Nat) : ℚ) /
            ((maxAheadDiff e frameNumber : Nat) : ℚ) ∧
        0 ≤ c.weight ∧ c.weight ≤ 1) := by
  constructor
  · intro hs
    simp [getAheadPeers, hs]
  · intro hs
    by_cases hemp : (e.peerMap.filter (peerEligible e frameNumber)).isEmpty
    · rw [List.isEmpty_iff] at hemp
      constructor
      · simp [getAheadPeers, hs, hemp]
      · intro c hc
        simp [getAheadPeers, hs, hemp] at hc
    · have hperm :
          (getAheadPeers e frameNumber keys).Perm
            ((e.peerMap.filter (peerEligible e frameNumber)).map (fun v =>
              ⟨v.peerId, v.maxFrame,
                ((v.maxFrame - frameNumber : Nat) : ℚ) /
                  ((maxAheadDiff e frameNumber : Nat) : ℚ)⟩)) := by
        simp only [getAheadPeers, hs, Bool.false_eq_true, if_false, hemp]
        exact sampleShuffle_perm _ keys
      refine ⟨hperm, fun c hc => ?_⟩
      have hc2 := hperm.mem_iff.mp hc
      rcases List.mem_map.mp hc2 with ⟨v, hv, hcv⟩
      have hvel := (List.mem_filter.mp hv).2
      have hlt : frameNumber < v.maxFrame := by
        simp only [peerEligible, Bool.and_eq_true, decide_eq_true_eq] at hvel
        exact hvel.1.1.1
      have hdiffmem : v.maxFrame - frameNumber ∈
          ((e.peerMap.filter (peerEligible e frameNumber)).map
            (fun v => v.maxFrame - frameNumber)) :=
        List.mem_map.mpr ⟨v, hv, rfl⟩
      have hle : v.maxFrame - frameNumber ≤ maxAheadDiff e frameNumber :=
        le_foldr_max _ _ hdiffmem
      subst hcv
      refine ⟨rfl, ?_, ?_⟩
      · exact div_nonneg (by positivity) (by positivity)
      · exact div_le_one_of_le (by exact_mod_cast hle) (by positivity)

/-- Witness for claim C6: a registry whose node is itself a prover returns no
candidates; one with a single eligible peer three frames ahead returns that
peer with weight `3/3`. -/
theorem getAheadPeers_spec_witness :
    getAheadPeers ⟨true, [⟨[7], 8, 50, [3]⟩], [], 0, [1]⟩ 5 [0] = [] ∧
    (getAheadPeers ⟨false, [⟨[7], 8, 50, [3]⟩], [], 0, [1]⟩ 5 [0]).Perm
      ((([⟨[7], 8, 50, [3]⟩] : List PeerInfo).filter
          (peerEligible ⟨false, [⟨[7], 8, 50, [3]⟩], [], 0, [1]⟩ 5)).map (fun v =>
        (⟨v.peerId, v.maxFrame,
          ((v.maxFrame - 5 : Nat) : ℚ) /
            ((maxAheadDiff ⟨false, [⟨[7], 8, 50, [3]⟩], [], 0, [1]⟩ 5 : Nat) : ℚ)⟩ :
          WeightedPeerCandidate))) ∧
    (0 : ℚ) ≤ (⟨[7], 8,
        ((8 - 5 : Nat) : ℚ) /
          ((maxAheadDiff ⟨false, [⟨[7], 8, 50, [3]⟩], [], 0, [1]⟩ 5 : Nat) : ℚ)⟩ :
        WeightedPeerCandidate).weight :=
  ⟨(getAheadPeers_spec ⟨true, [⟨[7], 8, 50, [3]⟩], [], 0, [1]⟩ 5 [0]).1 rfl,
   ((getAheadPeers_spec ⟨false, [⟨[7], 8, 50, [3]⟩], [], 0, [1]⟩ 5 [0]).2 rfl).1,
   (((getAheadPeers_spec ⟨false, [⟨[7], 8, 50, [3]⟩], [], 0, [1]⟩ 5 [0]).2 rfl).2
      ⟨[7], 8,
        ((8 - 5 : Nat) : ℚ) /
          ((maxAheadDiff ⟨false, [⟨[7], 8, 50, [3]⟩], [], 0, [1]⟩ 5 : Nat) : ℚ)⟩
      (by simp [getAheadPeers, sampleShuffle, sampleShuffleAux, peerEligible,
        byteCompare])).2.1⟩

/-- Two's-complement wrap of Go `int64` arithmetic. -/
def int64Wrap (z : Int) : Int := (z + 2 ^ 63) % 2 ^ 64 - 2 ^ 63

/-- `z` fits in a Go `int64`. -/
def int64InRange (z : Int) : Prop := -(2 ^ 63) ≤ z ∧ z < 2 ^ 63

instance (z : Int) : Decidable (int64InRange z) := by
  unfold int64InRange
  infer_instance

/-- Go map lookup on the `b.peerScore` map. -/
def lookupScore (k : Bytes) : List (Bytes × Int) → Option Int
  | [] => none
  | (k2, v) :: rest => if k2 = k then some v else lookupScore k rest

/-- `GetPeerScore` (blossomsub.go lines 769-774): a missing entry reads as the
zero value. -/
def getPeerScore (m : List (Bytes × Int)) (peerId : Bytes) : Int :=
  (lookupScore peerId m).getD 0

/-- `SetPeerScore` (blossomsub.go lines 776-780): map store. -/
def setPeerScore (m : List (Bytes × Int)) (peerId : Bytes) (score : Int) :
    List (Bytes × Int) :=
  (peerId, score) :: m.filter (fun p => decide (p.1 ≠ peerId))

/-- `AddPeerScore` (blossomsub.go lines 782-790): a missing entry is set to
the delta, an existing one to the int64 sum of the old score and the delta. -/
def addPeerScore (m : List (Bytes × Int)) (peerId : Bytes) (delta : Int) :
    List (Bytes × Int) :=
  match lookupScore peerId m with
  | none => setPeerScore m peerId delta
  | some s => setPeerScore m peerId (int64Wrap (s + delta))

/-- Claim C10 (counterexample to the claim as stated): Go `int64` addition
wraps, so `AddPeerScore` at the maximum score with delta 1 yields `−2^63`, not
the previous score plus 1. -/
theorem addPeerScore_overflow_counterexample :
    getPeerScore (addPeerScore [([1], 2 ^ 63 - 1)] [1] 1) [1] = -(2 ^ 63) ∧
    getPeerScore (addPeerScore [([1], 2 ^ 63 - 1)] [1] 1) [1] ≠ (2 ^ 63 - 1) + 1 := by
  decide

lemma lookupScore_set_self (m : List (Bytes × Int)) (p : Bytes) (s : Int) :
    lookupScore p (setPeerScore m p s) = some s := by
  simp [setPeerScore, lookupScore]

/-- Claim C10 (amended): the peer score operations never fail and behave as
int64 counters with absent entries read as zero: a never-set peer reads 0;
`GetPeerScore` after `SetPeerScore(peer, s)` returns `s`; and
`AddPeerScore(peer, d)` leaves the score equal to the two's-complement int64
wrap of the previous score plus `d` (previous score 0 when absent) — equal to
the exact sum whenever that sum fits in int64. -/
theorem peer_score_counter_spec (m : List (Bytes × Int)) (p : Bytes) (s d : Int)
    (hd : int64InRange d) :
    (lookupScore p m = none → getPeerScore m p = 0) ∧
    getPeerScore (setPeerScore m p s) p = s ∧
    getPeerScore (addPeerScore m p d) p = int64Wrap (getPeerScore m p + d) ∧
    (int64InRange (getPeerScore m p + d) →
      getPeerScore (addPeerScore m p d) p = getPeerScore m p + d) := by
  have hwrap : ∀ z : Int, int64InRange z → int64Wrap z = z := by
    intro z hz
    obtain ⟨h1, h2⟩ := hz
    unfold int64Wrap
    omega
  have hadd : getPeerScore (addPeerScore m p d) p = int64Wrap (getPeerScore m p + d) := by
    unfold addPeerScore
    cases hl : lookupScore p m with
    | none =>
      have : getPeerScore m p = 0 := by simp [getPeerScore, hl]
      rw [this]
      simp only [getPeerScore, lookupScore_set_self, Option.getD_some]
      rw [Int.zero_add, hwrap d hd]
    | some s0 =>
      have : getPeerScore m p = s0 := by simp [getPeerScore, hl]
      rw [this]
      simp [getPeerScore, lookupScore_set_self]
  refine ⟨fun h => by simp [getPeerScore, h], ?_, hadd, fun hr => ?_⟩
  · simp [getPeerScore, lookupScore_set_self]
  · rw [hadd, hwrap _ hr]

/-- Witness for the amended claim C10 on a concrete score map. -/
theorem peer_score_counter_spec_witness :
    getPeerScore ([] : List (Bytes × Int)) [1] = 0 ∧
    getPeerScore (setPeerScore [] [1] 7) [1] = 7 ∧
    getPeerScore (addPeerScore [] [1] 3) [1] = int64Wrap (getPeerScore [] [1] + 3) ∧
    getPeerScore (addPeerScore [] [1] 3) [1] = getPeerScore [] [1] + 3 :=
  ⟨(peer_score_counter_spec [] [1] 7 3 (by decide)).1 rfl,
   (peer_score_counter_spec [] [1] 7 3 (by decide)).2.1,
   (peer_score_counter_spec [] [1] 7 3 (by decide)).2.2.1,
   (peer_score_counter_spec [] [1] 7 3 (by decide)).2.2.2 (by decide)⟩

end Ceremony
